import Mathlib

/-!
Shallow embedding of `src/backend/routers/announcements.py`: announcement
CRUD endpoints of a school management system.

Modelling conventions:
* MongoDB-style documents become the structure `AnnDoc`; a field that is
  absent from the document or stored as JSON `null` is `none` (Python's
  `dict.get` returns `None` in both cases, and every read in the source
  goes through `dict.get`).
* The announcement collection is a list of documents; `find_one` is
  `List.find?` (first match), `update_one` replaces the first match,
  `delete_one` removes the first match.
* The teacher directory is the list of teacher usernames; `find_one` on it
  is a membership test.
* `datetime.date` values are encoded as the natural number
  `y * 10000 + m * 100 + d`, so that the order on encodings agrees with
  the order on dates.  `date.fromisoformat` is modelled for its
  `YYYY-MM-DD` format, including month lengths and leap years.
* Python string comparison (used by `list.sort`) is lexicographic
  comparison of code points, modelled by `strLe`.
* Nondeterministic inputs of an endpoint (`uuid.uuid4().hex`,
  `datetime.utcnow().isoformat()`, `date.today()`) are explicit
  parameters.
* Raised `HTTPException`s become the `ApiError` error component of the
  result; every mutating endpoint returns the resulting collection next to
  its `Except` result, the input collection when an exception was raised
  before the write.
-/

/-- Lexicographic comparison of code-point sequences, Python's `<=` on
strings restricted to the order used by `list.sort`. -/
def charListLe : List Char → List Char → Bool
  | [], _ => true
  | _ :: _, [] => false
  | a :: as, b :: bs =>
    if a.toNat = b.toNat then charListLe as bs else decide (a.toNat < b.toNat)

/-- Python string `<=` (code-point lexicographic order). -/
def strLe (a b : String) : Bool := charListLe a.data b.data

/-- ASCII lower-casing of one character, `str.lower` on the characters the
module compares against. -/
def lowerChar (c : Char) : Char :=
  if 65 ≤ c.toNat ∧ c.toNat ≤ 90 then Char.ofNat (c.toNat + 32) else c

/-- Python `str.lower`. -/
def strLower (s : String) : String := ⟨s.data.map lowerChar⟩

/-- ASCII whitespace as stripped by Python's `str.strip()`. -/
def isPySpace (c : Char) : Bool :=
  c.toNat = 32 ∨ c.toNat = 9 ∨ c.toNat = 10 ∨ c.toNat = 13 ∨ c.toNat = 11 ∨ c.toNat = 12

/-- Python `str.strip()`: drop leading and trailing whitespace. -/
def strip (s : String) : String :=
  ⟨((s.data.dropWhile isPySpace).reverse.dropWhile isPySpace).reverse⟩

/-- Insert `x` into `l` in front of the first element not below it.  Used
by `sortByLe`. -/
def insertSorted {α : Type} (le : α → α → Bool) (x : α) : List α → List α
  | [] => [x]
  | y :: ys => if le x y then x :: y :: ys else y :: insertSorted le x ys

/-- Stable sort by a boolean comparison, modelling Python's `list.sort`:
for a total transitive `le` both produce the same list, the unique stable
`le`-sorted permutation of the input. -/
def sortByLe {α : Type} (le : α → α → Bool) : List α → List α
  | [] => []
  | x :: xs => insertSorted le x (sortByLe le xs)

/-- Value of a decimal digit character, `none` for a non-digit. -/
def digitVal (c : Char) : Option Nat :=
  if c.isDigit then some (c.toNat - 48) else none

/-- Gregorian leap-year test, as in `datetime`. -/
def isLeap (y : Nat) : Bool :=
  y % 4 == 0 && (y % 100 != 0 || y % 400 == 0)

/-- Number of days of month `m` in year `y`. -/
def daysInMonth (y m : Nat) : Nat :=
  if m = 2 then (if isLeap y then 29 else 28)
  else if m = 4 ∨ m = 6 ∨ m = 9 ∨ m = 11 then 30
  else 31

/-- `date.fromisoformat` on the `YYYY-MM-DD` format: `none` models the
`ValueError` raised on any other input.  A successfully parsed date is
encoded as `y * 10000 + m * 100 + d`. -/
def fromisoformat (s : String) : Option Nat :=
  match s.data with
  | [c1, c2, c3, c4, h1, c5, c6, h2, c7, c8] =>
    if h1 = '-' ∧ h2 = '-' then
      match digitVal c1, digitVal c2, digitVal c3, digitVal c4,
            digitVal c5, digitVal c6, digitVal c7, digitVal c8 with
      | some a, some b, some c, some d, some e, some f, some g, some k =>
        let y := 1000 * a + 100 * b + 10 * c + d
        let m := 10 * e + f
        let dd := 10 * g + k
        if 1 ≤ y ∧ 1 ≤ m ∧ m ≤ 12 ∧ 1 ≤ dd ∧ dd ≤ daysInMonth y m then
          some (y * 10000 + m * 100 + dd)
        else none
      | _, _, _, _, _, _, _, _ => none
    else none
  | _ => none

/-- `parse_date`: `None` and `""` give `None`; otherwise try
`date.fromisoformat`, `None` on `ValueError`. -/
def parse_date (value : Option String) : Option Nat :=
  match value with
  | none => none
  | some s => if s = "" then none else fromisoformat s

/-- The module-level set `ALLOWED_LEVELS`. -/
def ALLOWED_LEVELS : List String := ["info", "success", "warning"]

/-- `normalize_level`: falsy input (`None` or `""`) gives `"info"`;
otherwise lower-case and keep it when allowed, else `"info"`. -/
def normalize_level (value : Option String) : String :=
  match value with
  | none => "info"
  | some v =>
    if v = "" then "info"
    else
      let normalized := strLower v
      if normalized = "info" ∨ normalized = "success" ∨ normalized = "warning" then
        normalized
      else "info"

/-- A stored announcement document.  `none` in an optional field models
both an absent key and a stored `None`, matching every `doc.get` read in
the source. -/
structure AnnDoc where
  id : String
  message : Option String
  start_date : Option String
  end_date : Option String
  level : Option String
  created_at : Option String
  updated_at : Option String
deriving DecidableEq, Repr

/-- The announcement collection. -/
abbrev Store := List AnnDoc

/-- The serialized record shape returned by every endpoint. -/
structure Serialized where
  id : String
  message : Option String
  start_date : Option String
  end_date : Option String
  level : String
  created_at : Option String
  updated_at : Option String
deriving DecidableEq, Repr

/-- `serialize_announcement`: project the stored fields, defaulting
`level` to `"info"`. -/
def serialize_announcement (doc : AnnDoc) : Serialized :=
  { id := doc.id
    message := doc.message
    start_date := doc.start_date
    end_date := doc.end_date
    level := doc.level.getD "info"
    created_at := doc.created_at
    updated_at := doc.updated_at }

/-- The error taxonomy of the module's `HTTPException`s. -/
inductive ApiError where
  | unauthorized
  | badRequest
  | notFound
  | internalError
deriving DecidableEq, Repr

deriving instance DecidableEq for Except

/-- `require_teacher`: 401 when the username is falsy (`None` or `""`) or
when the teacher directory has no record with that id. -/
def require_teacher (teacher_username : Option String) (teachers : List String) :
    Except ApiError Unit :=
  match teacher_username with
  | none => .error .unauthorized
  | some u =>
    if u = "" then .error .unauthorized
    else if teachers.contains u then .ok ()
    else .error .unauthorized

/-- `is_active_announcement`: inactive when `end_date` does not parse, or
when a parsed `start_date` is in the future; otherwise active exactly when
`today <= end`. -/
def is_active_announcement (doc : AnnDoc) (today : Nat) : Bool :=
  match parse_date doc.end_date with
  | none => false
  | some e =>
    match parse_date doc.start_date with
    | some s => if today < s then false else decide (today ≤ e)
    | none => decide (today ≤ e)

/-- Sort key of the active list: `item.get("end_date") or "9999-12-31"`. -/
def sort_key (item : Serialized) : String :=
  match item.end_date with
  | none => "9999-12-31"
  | some s => if s = "" then "9999-12-31" else s

/-- Sort key of the all list: `item.get("created_at") or ""`. -/
def created_key (item : Serialized) : String :=
  match item.created_at with
  | none => ""
  | some s => s

/-- `GET /announcements`: filter by the active predicate at the current
date, serialize, sort ascending by `sort_key`. -/
def get_active_announcements (store : Store) (today : Nat) : List Serialized :=
  sortByLe (fun a b => strLe (sort_key a) (sort_key b))
    ((store.filter (fun d => is_active_announcement d today)).map
      serialize_announcement)

/-- `GET /announcements/all`: requires a teacher; serializes everything and
sorts ascending by `created_key`. -/
def get_all_announcements (teachers : List String) (teacher_username : Option String)
    (store : Store) : Except ApiError (List Serialized) :=
  match require_teacher teacher_username teachers with
  | .error e => .error e
  | .ok _ =>
    .ok (sortByLe (fun a b => strLe (created_key a) (created_key b))
      (store.map serialize_announcement))

/-- The `AnnouncementCreate` request model.  `level = none` models an
explicit JSON `null`; an omitted `level` arrives as `some "info"` through
the pydantic default. -/
structure AnnouncementCreate where
  message : String
  start_date : Option String
  end_date : String
  level : Option String
deriving DecidableEq, Repr

/-- The `AnnouncementUpdate` request model: `none` is an omitted field. -/
structure AnnouncementUpdate where
  message : Option String
  start_date : Option String
  end_date : Option String
  level : Option String
deriving DecidableEq, Repr

/-- Python `s or None` on a string: `""` becomes `None`. -/
def orNone (s : String) : Option String := if s = "" then none else some s

/-- `POST /announcements`: authorize, validate the dates, build and append
the record, return its serialization.  The generated id and the current
UTC timestamp are parameters. -/
def create_announcement (teachers : List String) (teacher_username : Option String)
    (payload : AnnouncementCreate) (announcement_id : String) (now_iso : String)
    (store : Store) : Except ApiError Serialized × Store :=
  match require_teacher teacher_username teachers with
  | .error e => (.error e, store)
  | .ok _ =>
    match parse_date (some payload.end_date) with
    | none => (.error .badRequest, store)
    | some e =>
      if (match parse_date payload.start_date with
          | some s => decide (e < s)
          | none => false) then
        (.error .badRequest, store)
      else
        let record : AnnDoc :=
          { id := announcement_id
            message := some (strip payload.message)
            start_date := match payload.start_date with
              | none => none
              | some s => orNone s
            end_date := some payload.end_date
            level := some (normalize_level payload.level)
            created_at := some now_iso
            updated_at := some now_iso }
        (.ok (serialize_announcement record), store ++ [record])

/-- Replace the first document whose id matches (`update_one`). -/
def replaceFirstById : Store → String → AnnDoc → Store
  | [], _, _ => []
  | d :: rest, i, nd =>
    if d.id = i then nd :: rest else d :: replaceFirstById rest i nd

/-- Remove the first document whose id matches (`delete_one`); `none` when
nothing matched (`deleted_count == 0`). -/
def deleteFirstById : Store → String → Option Store
  | [], _ => none
  | d :: rest, i =>
    if d.id = i then some rest
    else
      match deleteFirstById rest i with
      | some r => some (d :: r)
      | none => none

/-- `PUT /announcements/{id}`: authorize, validate the supplied fields in
source order, look the record up (404 when absent), re-validate the merged
date window, write the merged record and return the re-fetched
serialization.  The unreachable re-fetch miss is mapped to the generic
500. -/
def update_announcement (teachers : List String) (teacher_username : Option String)
    (announcement_id : String) (payload : AnnouncementUpdate) (now_iso : String)
    (store : Store) : Except ApiError Serialized × Store :=
  match require_teacher teacher_username teachers with
  | .error e => (.error e, store)
  | .ok _ =>
    if (match payload.start_date with
        | some s => if s = "" then false else (parse_date (some s)).isNone
        | none => false) then
      (.error .badRequest, store)
    else if (match payload.end_date with
        | some s => (parse_date (some s)).isNone
        | none => false) then
      (.error .badRequest, store)
    else
      match store.find? (fun d => d.id == announcement_id) with
      | none => (.error .notFound, store)
      | some existing =>
        let merged_start : Option String :=
          match payload.start_date with
          | some s => orNone s
          | none => existing.start_date
        let merged_end : Option String :=
          match payload.end_date with
          | some s => some s
          | none => existing.end_date
        if (match parse_date merged_end with
            | none => true
            | some e =>
              match parse_date merged_start with
              | some s => decide (e < s)
              | none => false) then
          (.error .badRequest, store)
        else
          let updated : AnnDoc :=
            { id := existing.id
              message := match payload.message with
                | some m => some (strip m)
                | none => existing.message
              start_date := merged_start
              end_date := merged_end
              level := match payload.level with
                | some l => some (normalize_level (some l))
                | none => existing.level
              created_at := existing.created_at
              updated_at := some now_iso }
          let store2 := replaceFirstById store announcement_id updated
          match store2.find? (fun d => d.id == announcement_id) with
          | some doc => (.ok (serialize_announcement doc), store2)
          | none => (.error .internalError, store2)

/-- `DELETE /announcements/{id}`: authorize, delete by id, 404 when
nothing was deleted, else the confirmation message. -/
def delete_announcement (teachers : List String) (teacher_username : Option String)
    (announcement_id : String) (store : Store) : Except ApiError String × Store :=
  match require_teacher teacher_username teachers with
  | .error e => (.error e, store)
  | .ok _ =>
    match deleteFirstById store announcement_id with
    | none => (.error .notFound, store)
    | some store2 => (.ok "Announcement deleted", store2)

/-! ### Order properties of the modelled Python string comparison -/

theorem charListLe_total (a b : List Char) :
    charListLe a b = true ∨ charListLe b a = true := by
  induction a generalizing b with
  | nil => left; rfl
  | cons x xs ih =>
    cases b with
    | nil => right; rfl
    | cons y ys =>
      by_cases hxy : x.toNat = y.toNat
      · simp only [charListLe, if_pos hxy, if_pos hxy.symm]
        exact ih ys
      · simp only [charListLe, if_neg hxy, if_neg (Ne.symm hxy), decide_eq_true_eq]
        rcases Nat.lt_or_ge x.toNat y.toNat with h | h
        · left; exact h
        · right; exact Nat.lt_of_le_of_ne h (Ne.symm hxy)

theorem charListLe_trans {a b c : List Char} (h1 : charListLe a b = true)
    (h2 : charListLe b c = true) : charListLe a c = true := by
  induction a generalizing b c with
  | nil => rfl
  | cons x xs ih =>
    cases b with
    | nil => simp [charListLe] at h1
    | cons y ys =>
      cases c with
      | nil => simp [charListLe] at h2
      | cons z zs =>
        by_cases hxy : x.toNat = y.toNat
        · by_cases hyz : y.toNat = z.toNat
          · simp only [charListLe, if_pos hxy, if_pos hyz, if_pos (hxy.trans hyz)] at h1 h2 ⊢
            exact ih h1 h2
          · have hxz : ¬ x.toNat = z.toNat := fun h => hyz (hxy.symm.trans h)
            simp only [charListLe, if_neg hyz] at h2
            show (if x.toNat = z.toNat then charListLe xs zs
              else decide (x.toNat < z.toNat)) = true
            rw [if_neg hxz, hxy]
            exact h2
        · by_cases hyz : y.toNat = z.toNat
          · simp only [charListLe, if_neg hxy] at h1
            have hxz : ¬ x.toNat = z.toNat := fun h => hxy (h.trans hyz.symm)
            show (if x.toNat = z.toNat then charListLe xs zs
              else decide (x.toNat < z.toNat)) = true
            rw [if_neg hxz, ← hyz]
            exact h1
          · simp only [charListLe, if_neg hxy, decide_eq_true_eq] at h1
            simp only [charListLe, if_neg hyz, decide_eq_true_eq] at h2
            have hlt := Nat.lt_trans h1 h2
            have hxz : ¬ x.toNat = z.toNat := Nat.ne_of_lt hlt
            simp only [charListLe, if_neg hxz, decide_eq_true_eq]
            exact hlt

theorem strLe_total (a b : String) : strLe a b = true ∨ strLe b a = true :=
  charListLe_total a.data b.data

theorem strLe_trans {a b c : String} (h1 : strLe a b = true) (h2 : strLe b c = true) :
    strLe a c = true :=
  charListLe_trans h1 h2

/-! ### The stable sort used to model `list.sort` -/

theorem mem_insertSorted {α : Type} (le : α → α → Bool) (x a : α) (l : List α) :
    a ∈ insertSorted le x l ↔ a = x ∨ a ∈ l := by
  induction l with
  | nil => simp [insertSorted]
  | cons y ys ih =>
    by_cases h : le x y = true
    · simp [insertSorted, h]
    · simp only [insertSorted, if_neg h, List.mem_cons, ih]
      tauto

theorem insertSorted_pairwise {α : Type} (le : α → α → Bool)
    (htot : ∀ a b, le a b = true ∨ le b a = true)
    (htrans : ∀ a b c, le a b = true → le b c = true → le a c = true)
    (x : α) (l : List α) (h : List.Pairwise (fun a b => le a b = true) l) :
    List.Pairwise (fun a b => le a b = true) (insertSorted le x l) := by
  induction l with
  | nil => simp [insertSorted]
  | cons y ys ih =>
    rcases List.pairwise_cons.mp h with ⟨hy, hys⟩
    by_cases hxy : le x y = true
    · rw [insertSorted, if_pos hxy]
      refine List.pairwise_cons.mpr ⟨?_, h⟩
      intro z hz
      rcases List.mem_cons.mp hz with rfl | hz
      · exact hxy
      · exact htrans x y z hxy (hy z hz)
    · rw [insertSorted, if_neg hxy]
      refine List.pairwise_cons.mpr ⟨?_, ih hys⟩
      intro z hz
      rcases (mem_insertSorted le x z ys).mp hz with rfl | hz
      · rcases htot z y with h1 | h1
        · exact absurd h1 hxy
        · exact h1
      · exact hy z hz

theorem sortByLe_pairwise {α : Type} (le : α → α → Bool)
    (htot : ∀ a b, le a b = true ∨ le b a = true)
    (htrans : ∀ a b c, le a b = true → le b c = true → le a c = true)
    (l : List α) : List.Pairwise (fun a b => le a b = true) (sortByLe le l) := by
  induction l with
  | nil => exact List.Pairwise.nil
  | cons x xs ih => exact insertSorted_pairwise le htot htrans x (sortByLe le xs) ih

theorem mem_sortByLe {α : Type} (le : α → α → Bool) (a : α) (l : List α) :
    a ∈ sortByLe le l ↔ a ∈ l := by
  induction l with
  | nil => simp [sortByLe]
  | cons x xs ih =>
    simp only [sortByLe, mem_insertSorted, ih, List.mem_cons]

/-! ### Collection helper lemmas -/

theorem find?_replaceFirstById (store : Store) (aid : String) (nd : AnnDoc)
    (hid : nd.id = aid) (existing : AnnDoc)
    (h : store.find? (fun d => d.id == aid) = some existing) :
    (replaceFirstById store aid nd).find? (fun d => d.id == aid) = some nd := by
  induction store with
  | nil => simp [List.find?] at h
  | cons d rest ih =>
    by_cases hd : d.id = aid
    · rw [replaceFirstById, if_pos hd]
      simp [List.find?_cons, hid]
    · rw [replaceFirstById, if_neg hd]
      have hbe : (d.id == aid) = false := by simp [hd]
      simp only [List.find?_cons, hbe] at h ⊢
      exact ih h

theorem deleteFirstById_eq_none (store : Store) (aid : String) :
    deleteFirstById store aid = none ↔ ∀ d ∈ store, d.id ≠ aid := by
  induction store with
  | nil => simp [deleteFirstById]
  | cons d rest ih =>
    by_cases hd : d.id = aid
    · rw [deleteFirstById, if_pos hd]
      simp [hd]
    · rw [deleteFirstById, if_neg hd]
      cases hrec : deleteFirstById rest aid with
      | some r =>
        simp only [reduceCtorEq, false_iff]
        intro hall
        have : deleteFirstById rest aid = none :=
          (ih).mpr (fun x hx => hall x (List.mem_cons_of_mem d hx))
        rw [this] at hrec
        exact absurd hrec (by simp)
      | none =>
        simp only [true_iff]
        intro x hx
        rcases List.mem_cons.mp hx with rfl | hx
        · exact hd
        · exact (ih.mp hrec) x hx

theorem deleteFirstById_rest_no_id (store : Store) (aid : String) :
    ∀ s2 : Store, (store.map AnnDoc.id).Nodup →
      deleteFirstById store aid = some s2 → ∀ d ∈ s2, d.id ≠ aid := by
  induction store with
  | nil =>
    intro s2 _ h
    simp [deleteFirstById] at h
  | cons d rest ih =>
    intro s2 hnd h
    rw [List.map_cons, List.nodup_cons] at hnd
    by_cases hd : d.id = aid
    · rw [deleteFirstById, if_pos hd] at h
      cases h
      intro x hx hxid
      exact hnd.1 (hd ▸ hxid ▸ List.mem_map_of_mem AnnDoc.id hx)
    · rw [deleteFirstById, if_neg hd] at h
      cases hrec : deleteFirstById rest aid with
      | none => rw [hrec] at h; exact absurd h (by simp)
      | some r =>
        rw [hrec] at h
        cases h
        intro x hx
        rcases List.mem_cons.mp hx with rfl | hx
        · exact hd
        · exact ih r hnd.2 hrec x hx

theorem deleteFirstById_isSome_of_mem (store : Store) (aid : String) (d : AnnDoc)
    (hm : d ∈ store) (hid : d.id = aid) :
    deleteFirstById store aid ≠ none := by
  intro hnone
  exact (deleteFirstById_eq_none store aid).mp hnone d hm hid

/-! ### Authorization helper -/

theorem require_teacher_unauthorized (teachers : List String) (tu : Option String)
    (hbad : tu = none ∨ ∀ u, tu = some u → teachers.contains u = false) :
    require_teacher tu teachers = .error .unauthorized := by
  cases tu with
  | none => rfl
  | some u =>
    rcases hbad with h | h
    · exact absurd h (by simp)
    · have hc := h u rfl
      unfold require_teacher
      by_cases hu : u = ""
      · simp [hu]
      · simp only [if_neg hu, hc, Bool.false_eq_true, if_false]

/-! ### Successful creation helper -/

theorem create_announcement_ok (teachers : List String) (tu : Option String)
    (payload : AnnouncementCreate) (aid now : String) (store : Store) (e : Nat)
    (hauth : require_teacher tu teachers = .ok ())
    (hend : parse_date (some payload.end_date) = some e)
    (hrange : ∀ s, parse_date payload.start_date = some s → s ≤ e) :
    ∃ rec : AnnDoc,
      create_announcement teachers tu payload aid now store =
        (.ok (serialize_announcement rec), store ++ [rec]) ∧
      rec.id = aid ∧
      rec.message = some (strip payload.message) ∧
      rec.start_date = (match payload.start_date with
        | none => none
        | some s => orNone s) ∧
      rec.end_date = some payload.end_date ∧
      rec.level = some (normalize_level payload.level) ∧
      rec.created_at = some now ∧
      rec.updated_at = some now := by
  have hcond : (match parse_date payload.start_date with
      | some s => decide (e < s)
      | none => false) = false := by
    cases hps : parse_date payload.start_date with
    | none => rfl
    | some s =>
      have := hrange s hps
      simp [Nat.not_lt_of_le this]
  simp only [create_announcement, hauth, hend, hcond, Bool.false_eq_true, if_false]
  exact ⟨_, rfl, rfl, rfl, rfl, rfl, rfl, rfl, rfl⟩

/-! ### Level normalization helpers -/

theorem normalize_level_mem (v : Option String) :
    normalize_level v ∈ ALLOWED_LEVELS := by
  cases v with
  | none => simp [normalize_level, ALLOWED_LEVELS]
  | some s =>
    simp only [normalize_level]
    by_cases hs : s = ""
    · simp [hs, ALLOWED_LEVELS]
    · rw [if_neg hs]
      by_cases hin : strLower s = "info" ∨ strLower s = "success" ∨ strLower s = "warning"
      · rw [if_pos hin]
        rcases hin with h | h | h <;> simp [ALLOWED_LEVELS, h]
      · rw [if_neg hin]
        simp [ALLOWED_LEVELS]

theorem normalize_level_default (v : Option String)
    (h : v = none ∨ ∃ s, v = some s ∧ strLower s ∉ ALLOWED_LEVELS) :
    normalize_level v = "info" := by
  rcases h with h | ⟨s, hs, hnin⟩
  · simp [h, normalize_level]
  · subst hs
    simp only [normalize_level]
    by_cases hse : s = ""
    · simp [hse]
    · rw [if_neg hse]
      have : ¬ (strLower s = "info" ∨ strLower s = "success" ∨ strLower s = "warning") := by
        intro hc
        apply hnin
        rcases hc with h | h | h <;> simp [ALLOWED_LEVELS, h]
      rw [if_neg this]

/-- C5: a create, update or delete request whose teacher_username is
missing or not in the teacher directory fails with Unauthorized and leaves
the announcement store unchanged. -/
theorem C5_unauthorized_no_mutation (teachers : List String) (tu : Option String)
    (payloadC : AnnouncementCreate) (payloadU : AnnouncementUpdate)
    (aid now : String) (store : Store)
    (hbad : tu = none ∨ ∀ u, tu = some u → teachers.contains u = false) :
    create_announcement teachers tu payloadC aid now store = (.error .unauthorized, store) ∧
    update_announcement teachers tu aid payloadU now store = (.error .unauthorized, store) ∧
    delete_announcement teachers tu aid store = (.error .unauthorized, store) := by
  have h := require_teacher_unauthorized teachers tu hbad
  refine ⟨?_, ?_, ?_⟩
  · simp only [create_announcement, h]
  · simp only [update_announcement, h]
  · simp only [delete_announcement, h]

/-- Witness for C5 at a username not present in the directory. -/
theorem C5_unauthorized_no_mutation_witness :
    create_announcement ["t"] (some "x") ⟨"m", none, "2025-06-01", none⟩ "id" "T" [] =
      (.error .unauthorized, []) ∧
    update_announcement ["t"] (some "x") "id" ⟨none, none, none, none⟩ "T" [] =
      (.error .unauthorized, []) ∧
    delete_announcement ["t"] (some "x") "id" [] = (.error .unauthorized, []) :=
  C5_unauthorized_no_mutation ["t"] (some "x") ⟨"m", none, "2025-06-01", none⟩
    ⟨none, none, none, none⟩ "id" "T" []
    (Or.inr (fun u h => by cases h; decide))

/-- C6: the active list is sorted ascending by the end_date sort key,
where a missing or empty end_date is replaced by the far-future sentinel
"9999-12-31". -/
theorem C6_active_list_sorted (store : Store) (today : Nat) :
    List.Pairwise (fun a b => strLe (sort_key a) (sort_key b) = true)
      (get_active_announcements store today) := by
  unfold get_active_announcements
  exact sortByLe_pairwise (fun a b => strLe (sort_key a) (sort_key b))
    (fun a b => strLe_total (sort_key a) (sort_key b))
    (fun a b c h1 h2 => strLe_trans h1 h2) _

/-- C9: every record produced by a successful create stores a level among
the three allowed values, and an absent or unrecognized submitted level is
stored as "info". -/
theorem C9_created_level_allowed (teachers : List String) (tu : Option String)
    (payload : AnnouncementCreate) (aid now : String) (store : Store) (e : Nat)
    (hauth : require_teacher tu teachers = .ok ())
    (hend : parse_date (some payload.end_date) = some e)
    (hrange : ∀ s, parse_date payload.start_date = some s → s ≤ e) :
    ∃ rec : AnnDoc,
      create_announcement teachers tu payload aid now store =
        (.ok (serialize_announcement rec), store ++ [rec]) ∧
      rec.level = some (normalize_level payload.level) ∧
      normalize_level payload.level ∈ ALLOWED_LEVELS ∧
      ((payload.level = none ∨
          ∃ v, payload.level = some v ∧ strLower v ∉ ALLOWED_LEVELS) →
        normalize_level payload.level = "info") := by
  obtain ⟨rec, hcr, _, _, _, _, hlev, _, _⟩ :=
    create_announcement_ok teachers tu payload aid now store e hauth hend hrange
  exact ⟨rec, hcr, hlev, normalize_level_mem payload.level,
    normalize_level_default payload.level⟩

/-- Witness for C9 at an unrecognized submitted level. -/
theorem C9_created_level_allowed_witness :
    ∃ rec : AnnDoc,
      create_announcement ["t"] (some "t") ⟨"m", none, "2025-06-01", some "bogus"⟩
          "id" "T" [] =
        (.ok (serialize_announcement rec), [] ++ [rec]) ∧
      rec.level = some (normalize_level (some "bogus")) ∧
      normalize_level (some "bogus") ∈ ALLOWED_LEVELS ∧
      ((some "bogus" = (none : Option String) ∨
          ∃ v, (some "bogus" : Option String) = some v ∧ strLower v ∉ ALLOWED_LEVELS) →
        normalize_level (some "bogus") = "info") :=
  C9_created_level_allowed ["t"] (some "t") ⟨"m", none, "2025-06-01", some "bogus"⟩
    "id" "T" [] 20250601 (by decide) (by decide)
    (fun s hs => by simp [parse_date] at hs)

/-- C10: a stored document whose end_date is absent, empty or unparseable
is never active and contributes nothing to the active list, for every
current date; the listing is total on such malformed data. -/
theorem C10_unparseable_end_inactive (doc : AnnDoc)
    (hend : parse_date doc.end_date = none) (today : Nat) (store : Store) :
    is_active_announcement doc today = false ∧
    get_active_announcements (doc :: store) today = get_active_announcements store today := by
  have h1 : is_active_announcement doc today = false := by
    unfold is_active_announcement
    rw [hend]
  refine ⟨h1, ?_⟩
  unfold get_active_announcements
  rw [List.filter_cons_of_neg (by simp [h1])]

/-- Witness for C10 at an unparseable stored end_date. -/
theorem C10_unparseable_end_inactive_witness :
    is_active_announcement ⟨"a1", some "m", none, some "not-a-date", some "info",
      some "T0", some "T0"⟩ 20250101 = false ∧
    get_active_announcements
        [⟨"a1", some "m", none, some "not-a-date", some "info", some "T0", some "T0"⟩]
        20250101 =
      get_active_announcements [] 20250101 :=
  C10_unparseable_end_inactive
    ⟨"a1", some "m", none, some "not-a-date", some "info", some "T0", some "T0"⟩
    (by decide) 20250101 []

/-- C3: for a stored record whose end_date parses and whose start_date is
absent or parseable, the active list contains its serialization exactly
when end_date is on or after today and start_date is absent or on or
before today; membership in the active list is characterized by the
active predicate over the store. -/
theorem C3_active_iff (store : Store) (today : Nat) (doc : AnnDoc) (e : Nat)
    (hend : parse_date doc.end_date = some e)
    (hstart : doc.start_date = none ∨ ∃ s, parse_date doc.start_date = some s) :
    (is_active_announcement doc today = true ↔
      (today ≤ e ∧ (doc.start_date = none ∨
        ∃ s, parse_date doc.start_date = some s ∧ s ≤ today))) ∧
    (∀ x : Serialized, x ∈ get_active_announcements store today ↔
      ∃ d ∈ store, is_active_announcement d today = true ∧
        serialize_announcement d = x) := by
  constructor
  · unfold is_active_announcement
    rw [hend]
    rcases hstart with hs | ⟨s, hps⟩
    · rw [hs]
      simp [parse_date, hs]
    · rw [hps]
      have hnone : doc.start_date ≠ none := by
        intro hn
        rw [hn] at hps
        simp [parse_date] at hps
      by_cases hlt : today < s
      · simp only [if_pos hlt, Bool.false_eq_true, false_iff]
        rintro ⟨-, hcase⟩
        rcases hcase with hn | ⟨s2, hps2, hle⟩
        · exact hnone hn
        · cases hps2
          exact Nat.not_lt_of_le hle hlt
      · simp only [if_neg hlt, decide_eq_true_eq]
        constructor
        · intro hte
          exact ⟨hte, Or.inr ⟨s, rfl, Nat.le_of_not_lt hlt⟩⟩
        · rintro ⟨hte, -⟩
          exact hte
  · intro x
    unfold get_active_announcements
    rw [mem_sortByLe]
    simp only [List.mem_map, List.mem_filter]
    constructor
    · rintro ⟨d, ⟨hd, hact⟩, hser⟩
      exact ⟨d, hd, hact, hser⟩
    · rintro ⟨d, hd, hact, hser⟩
      exact ⟨d, ⟨hd, hact⟩, hser⟩

/-- Witness for C3 at a concrete record and date. -/
theorem C3_active_iff_witness :
    (is_active_announcement ⟨"a1", some "m", some "2025-01-01", some "2025-06-01",
        some "info", some "T0", some "T0"⟩ 20250301 = true ↔
      (20250301 ≤ 20250601 ∧
        ((⟨"a1", some "m", some "2025-01-01", some "2025-06-01", some "info",
            some "T0", some "T0"⟩ : AnnDoc).start_date = none ∨
          ∃ s, parse_date (⟨"a1", some "m", some "2025-01-01", some "2025-06-01",
            some "info", some "T0", some "T0"⟩ : AnnDoc).start_date = some s ∧
            s ≤ 20250301))) ∧
    (∀ x : Serialized,
      x ∈ get_active_announcements
          [⟨"a1", some "m", some "2025-01-01", some "2025-06-01", some "info",
            some "T0", some "T0"⟩] 20250301 ↔
        ∃ d ∈ [(⟨"a1", some "m", some "2025-01-01", some "2025-06-01", some "info",
            some "T0", some "T0"⟩ : AnnDoc)],
          is_active_announcement d 20250301 = true ∧
            serialize_announcement d = x) :=
  C3_active_iff
    [⟨"a1", some "m", some "2025-01-01", some "2025-06-01", some "info",
      some "T0", some "T0"⟩] 20250301
    ⟨"a1", some "m", some "2025-01-01", some "2025-06-01", some "info",
      some "T0", some "T0"⟩ 20250601
    (by decide) (Or.inr ⟨20250101, by decide⟩)

/-- C2 counterexample: an authorized create whose start_date is supplied
but does not parse as a date is not rejected with BadRequest, contrary to
the claim; the record is created with the unparseable start_date stored
verbatim. -/
theorem C2_counterexample :
    parse_date (some "notadate") = none ∧
    (create_announcement ["t"] (some "t")
        ⟨"hi", some "notadate", "2025-06-01", none⟩ "id1" "T0" []).fst ≠
      .error .badRequest ∧
    (create_announcement ["t"] (some "t")
        ⟨"hi", some "notadate", "2025-06-01", none⟩ "id1" "T0" []).snd =
      [⟨"id1", some "hi", some "notadate", some "2025-06-01", some "info",
        some "T0", some "T0"⟩] := by
  refine ⟨by decide, ?_, by decide⟩
  decide

/-- C2 amended: an authorized create fails with BadRequest exactly when
end_date does not parse, or when start_date parses as a date later than
the parsed end_date; in every other case (including a supplied start_date
that does not parse, which is accepted) the record is created. -/
theorem C2_create_badRequest_iff (teachers : List String) (tu : Option String)
    (payload : AnnouncementCreate) (aid now : String) (store : Store)
    (hauth : require_teacher tu teachers = .ok ()) :
    ((create_announcement teachers tu payload aid now store).fst =
        .error .badRequest ↔
      (parse_date (some payload.end_date) = none ∨
        ∃ s e, parse_date payload.start_date = some s ∧
          parse_date (some payload.end_date) = some e ∧ e < s)) ∧
    ((create_announcement teachers tu payload aid now store).fst ≠
        .error .badRequest →
      ∃ rec : AnnDoc, create_announcement teachers tu payload aid now store =
        (.ok (serialize_announcement rec), store ++ [rec])) := by
  cases hpe : parse_date (some payload.end_date) with
  | none =>
    have hcr : create_announcement teachers tu payload aid now store =
        (.error .badRequest, store) := by
      simp only [create_announcement, hauth, hpe]
    rw [hcr]
    exact ⟨by simp [hpe], fun hne => absurd rfl hne⟩
  | some e =>
    cases hps : parse_date payload.start_date with
    | none =>
      obtain ⟨rec, hcr, -, -, -, -, -, -, -⟩ :=
        create_announcement_ok teachers tu payload aid now store e hauth hpe
          (fun s hs => by rw [hps] at hs; cases hs)
      rw [hcr]
      constructor
      · simp only [reduceCtorEq, false_iff]
        rintro (h | ⟨s, e2, hs, -, -⟩)
        · exact h
        · exact hs
      · intro _
        exact ⟨rec, rfl⟩
    | some s =>
      by_cases hlt : e < s
      · have hcond : (match parse_date payload.start_date with
            | some s2 => decide (e < s2)
            | none => false) = true := by
          rw [hps]; simp [hlt]
        have hcr : create_announcement teachers tu payload aid now store =
            (.error .badRequest, store) := by
          simp only [create_announcement, hauth, hpe, hcond, if_true]
        rw [hcr]
        refine ⟨?_, fun hne => absurd rfl hne⟩
        simp only [true_iff]
        exact Or.inr ⟨s, e, rfl, rfl, hlt⟩
      · obtain ⟨rec, hcr, -, -, -, -, -, -, -⟩ :=
          create_announcement_ok teachers tu payload aid now store e hauth hpe
            (fun s2 hs2 => by
              rw [hps] at hs2
              cases hs2
              exact Nat.le_of_not_lt hlt)
        rw [hcr]
        constructor
        · simp only [reduceCtorEq, false_iff]
          rintro (h | ⟨s2, e2, hs2, he2, hlt2⟩)
          · exact h
          · cases hs2
            cases he2
            exact hlt hlt2
        · intro _
          exact ⟨rec, rfl⟩

/-- Witness for C2 at a start_date later than the end_date. -/
theorem C2_create_badRequest_iff_witness :
    ((create_announcement ["t"] (some "t")
        ⟨"m", some "2025-07-01", "2025-06-01", none⟩ "id" "T" []).fst =
        .error .badRequest ↔
      (parse_date (some "2025-06-01") = none ∨
        ∃ s e, parse_date (some "2025-07-01") = some s ∧
          parse_date (some "2025-06-01") = some e ∧ e < s)) ∧
    ((create_announcement ["t"] (some "t")
        ⟨"m", some "2025-07-01", "2025-06-01", none⟩ "id" "T" []).fst ≠
        .error .badRequest →
      ∃ rec : AnnDoc, create_announcement ["t"] (some "t")
          ⟨"m", some "2025-07-01", "2025-06-01", none⟩ "id" "T" [] =
        (.ok (serialize_announcement rec), [] ++ [rec])) :=
  C2_create_badRequest_iff ["t"] (some "t")
    ⟨"m", some "2025-07-01", "2025-06-01", none⟩ "id" "T" [] (by decide)

/-- C1 counterexample: an authorized update addressing an id with no
stored record, carrying an invalid payload (unparseable end_date), fails
with BadRequest rather than NotFound: field validation is reported before
the existence lookup. -/
theorem C1_counterexample :
    (update_announcement ["t"] (some "t") "missing"
        ⟨none, none, some "bogus", none⟩ "T1" []) =
      (.error .badRequest, []) ∧
    (.error .badRequest : Except ApiError Serialized) ≠ .error .notFound := by
  refine ⟨?_, by decide⟩
  decide

/-- C1 amended: an authorized update on an id with no stored record fails
with NotFound provided the payload passes the per-field validation (a
supplied start_date is empty or parseable, a supplied end_date is
parseable); when a supplied date field fails to parse, BadRequest is
reported instead, before the existence lookup. -/
theorem C1_update_missing_notFound (teachers : List String) (tu : Option String)
    (aid : String) (payload : AnnouncementUpdate) (now : String) (store : Store)
    (hauth : require_teacher tu teachers = .ok ())
    (hmiss : store.find? (fun d => d.id == aid) = none)
    (hstart : payload.start_date = none ∨ payload.start_date = some "" ∨
      parse_date payload.start_date ≠ none)
    (hend : payload.end_date = none ∨ parse_date payload.end_date ≠ none) :
    update_announcement teachers tu aid payload now store =
      (.error .notFound, store) := by
  have hs : (match payload.start_date with
      | some s => if s = "" then false else (parse_date (some s)).isNone
      | none => false) = false := by
    rcases hstart with h | h | h
    · rw [h]
    · rw [h]
      simp
    · cases hps : payload.start_date with
      | none => rfl
      | some s =>
        rw [hps] at h
        by_cases hse : s = ""
        · simp [hse]
        · simp only [if_neg hse]
          cases hp : parse_date (some s) with
          | none => exact absurd hp h
          | some v => simp [hp]
  have he : (match payload.end_date with
      | some s => (parse_date (some s)).isNone
      | none => false) = false := by
    rcases hend with h | h
    · rw [h]
    · cases hpe : payload.end_date with
      | none => rfl
      | some s =>
        rw [hpe] at h
        cases hp : parse_date (some s) with
        | none => exact absurd hp h
        | some v => simp [hp]
  simp only [update_announcement, hauth, hs, he, Bool.false_eq_true, if_false, hmiss]

/-- Witness for C1 amended at an empty store and a fully valid payload. -/
theorem C1_update_missing_notFound_witness :
    update_announcement ["t"] (some "t") "missing"
        ⟨some "msg", some "2025-01-01", some "2025-06-01", some "info"⟩ "T1" [] =
      (.error .notFound, []) :=
  C1_update_missing_notFound ["t"] (some "t") "missing"
    ⟨some "msg", some "2025-01-01", some "2025-06-01", some "info"⟩ "T1" []
    (by decide) (by decide)
    (Or.inr (Or.inr (by decide)))
    (Or.inr (by decide))

/-- C7 counterexample: a create submitted with start_date = "" succeeds
but stores start_date as absent (null), not as the submitted empty
string, so the read-back dates are not always "as submitted". -/
theorem C7_counterexample :
    (create_announcement ["t"] (some "t")
        ⟨" hi ", some "", "2025-06-01", none⟩ "id1" "T0" []).fst =
      .ok ⟨"id1", some "hi", none, some "2025-06-01", "info", some "T0", some "T0"⟩ ∧
    (none : Option String) ≠ some "" := by
  refine ⟨?_, by decide⟩
  decide

/-- C7 amended: every record produced by an authorized valid create is
returned by a subsequent authorized list-all read, with message
whitespace-stripped, level normalized, end_date as submitted, start_date
as submitted except that an empty-string start_date is stored as absent,
the generated id, and identical created_at and updated_at timestamps. -/
theorem C7_create_roundtrip (teachers : List String) (tu : Option String)
    (payload : AnnouncementCreate) (aid now : String) (store : Store) (e : Nat)
    (hauth : require_teacher tu teachers = .ok ())
    (hend : parse_date (some payload.end_date) = some e)
    (hrange : ∀ s, parse_date payload.start_date = some s → s ≤ e) :
    ∃ rec : AnnDoc,
      create_announcement teachers tu payload aid now store =
        (.ok (serialize_announcement rec), store ++ [rec]) ∧
      rec.id = aid ∧
      rec.message = some (strip payload.message) ∧
      (payload.start_date ≠ some "" → rec.start_date = payload.start_date) ∧
      (payload.start_date = some "" → rec.start_date = none) ∧
      rec.end_date = some payload.end_date ∧
      rec.level = some (normalize_level payload.level) ∧
      rec.created_at = some now ∧
      rec.updated_at = some now ∧
      ∃ l : List Serialized,
        get_all_announcements teachers tu (store ++ [rec]) = .ok l ∧
        serialize_announcement rec ∈ l := by
  obtain ⟨rec, hcr, hid, hmsg, hsd, hed, hlev, hca, hua⟩ :=
    create_announcement_ok teachers tu payload aid now store e hauth hend hrange
  refine ⟨rec, hcr, hid, hmsg, ?_, ?_, hed, hlev, hca, hua, ?_⟩
  · intro hne
    rw [hsd]
    cases hp : payload.start_date with
    | none => rfl
    | some s =>
      rw [hp] at hne
      have hsne : s ≠ "" := fun h => hne (by rw [h])
      simp [orNone, hsne]
  · intro heq
    rw [hsd, heq]
    simp [orNone]
  · refine ⟨sortByLe (fun a b => strLe (created_key a) (created_key b))
        ((store ++ [rec]).map serialize_announcement), ?_, ?_⟩
    · simp only [get_all_announcements, hauth]
    · rw [mem_sortByLe]
      exact List.mem_map_of_mem serialize_announcement (by simp)

/-- Witness for C7 at a concrete create followed by list-all. -/
theorem C7_create_roundtrip_witness :
    ∃ rec : AnnDoc,
      create_announcement ["t"] (some "t")
          ⟨" hi ", some "2025-01-01", "2025-06-01", some "WARNING"⟩ "id1" "T0" [] =
        (.ok (serialize_announcement rec), [] ++ [rec]) ∧
      rec.id = "id1" ∧
      rec.message = some (strip " hi ") ∧
      ((some "2025-01-01" : Option String) ≠ some "" →
        rec.start_date = some "2025-01-01") ∧
      ((some "2025-01-01" : Option String) = some "" → rec.start_date = none) ∧
      rec.end_date = some "2025-06-01" ∧
      rec.level = some (normalize_level (some "WARNING")) ∧
      rec.created_at = some "T0" ∧
      rec.updated_at = some "T0" ∧
      ∃ l : List Serialized,
        get_all_announcements ["t"] (some "t") ([] ++ [rec]) = .ok l ∧
        serialize_announcement rec ∈ l :=
  C7_create_roundtrip ["t"] (some "t")
    ⟨" hi ", some "2025-01-01", "2025-06-01", some "WARNING"⟩ "id1" "T0" [] 20250601
    (by decide) (by decide)
    (fun s hs => by
      have : parse_date (some "2025-01-01") = some 20250101 := by decide
      rw [this] at hs
      cases hs
      decide)

/-- C8: with unique stored ids, an authorized delete fails with NotFound
exactly when no stored record has the target id; after a successful
delete, a second authorized delete of the same id fails with NotFound. -/
theorem C8_delete_twice_notFound (teachers : List String) (tu : Option String)
    (aid : String) (store : Store)
    (hauth : require_teacher tu teachers = .ok ())
    (hnd : (store.map AnnDoc.id).Nodup) :
    ((delete_announcement teachers tu aid store).fst = .error .notFound ↔
      ∀ d ∈ store, d.id ≠ aid) ∧
    ((delete_announcement teachers tu aid store).fst ≠ .error .notFound →
      (delete_announcement teachers tu aid store).fst = .ok "Announcement deleted" ∧
      delete_announcement teachers tu aid
          (delete_announcement teachers tu aid store).snd =
        (.error .notFound, (delete_announcement teachers tu aid store).snd)) := by
  cases hdel : deleteFirstById store aid with
  | none =>
    have hcr : delete_announcement teachers tu aid store = (.error .notFound, store) := by
      simp only [delete_announcement, hauth, hdel]
    rw [hcr]
    refine ⟨?_, fun hne => absurd rfl hne⟩
    simp only [true_iff]
    exact (deleteFirstById_eq_none store aid).mp hdel
  | some s2 =>
    have hcr : delete_announcement teachers tu aid store =
        (.ok "Announcement deleted", s2) := by
      simp only [delete_announcement, hauth, hdel]
    rw [hcr]
    constructor
    · simp only [reduceCtorEq, false_iff]
      intro hall
      rw [(deleteFirstById_eq_none store aid).mpr hall] at hdel
      cases hdel
    · intro _
      refine ⟨rfl, ?_⟩
      have hnone : deleteFirstById s2 aid = none :=
        (deleteFirstById_eq_none s2 aid).mpr
          (deleteFirstById_rest_no_id store aid s2 hnd hdel)
      simp only [delete_announcement, hauth, hnone]

/-- Witness for C8 at a one-record store. -/
theorem C8_delete_twice_notFound_witness :
    ((delete_announcement ["t"] (some "t") "a1"
        [⟨"a1", some "m", none, some "2025-06-01", some "info", some "T0",
          some "T0"⟩]).fst = .error .notFound ↔
      ∀ d ∈ [(⟨"a1", some "m", none, some "2025-06-01", some "info", some "T0",
          some "T0"⟩ : AnnDoc)], d.id ≠ "a1") ∧
    ((delete_announcement ["t"] (some "t") "a1"
        [⟨"a1", some "m", none, some "2025-06-01", some "info", some "T0",
          some "T0"⟩]).fst ≠ .error .notFound →
      (delete_announcement ["t"] (some "t") "a1"
        [⟨"a1", some "m", none, some "2025-06-01", some "info", some "T0",
          some "T0"⟩]).fst = .ok "Announcement deleted" ∧
      delete_announcement ["t"] (some "t") "a1"
          (delete_announcement ["t"] (some "t") "a1"
            [⟨"a1", some "m", none, some "2025-06-01", some "info", some "T0",
              some "T0"⟩]).snd =
        (.error .notFound,
          (delete_announcement ["t"] (some "t") "a1"
            [⟨"a1", some "m", none, some "2025-06-01", some "info", some "T0",
              some "T0"⟩]).snd)) :=
  C8_delete_twice_notFound ["t"] (some "t") "a1"
    [⟨"a1", some "m", none, some "2025-06-01", some "info", some "T0", some "T0"⟩]
    (by decide) (by decide)

/-- C4: an authorized update of an existing record (whose stored end_date
parses, the data-model invariant) that supplies start_date as the empty
string stores the record with start_date absent, keeps end_date and every
other unsupplied field unchanged, and refreshes only updated_at. -/
theorem C4_update_empty_start_clears (teachers : List String) (tu : Option String)
    (aid : String) (payload : AnnouncementUpdate) (now : String) (store : Store)
    (existing : AnnDoc) (e : Nat)
    (hauth : require_teacher tu teachers = .ok ())
    (hfind : store.find? (fun d => d.id == aid) = some existing)
    (hend_inv : parse_date existing.end_date = some e)
    (hsd : payload.start_date = some "")
    (hed : payload.end_date = none) :
    ∃ updated : AnnDoc,
      update_announcement teachers tu aid payload now store =
        (.ok (serialize_announcement updated), replaceFirstById store aid updated) ∧
      updated.start_date = none ∧
      updated.end_date = existing.end_date ∧
      updated.id = existing.id ∧
      updated.created_at = existing.created_at ∧
      updated.updated_at = some now ∧
      (payload.message = none → updated.message = existing.message) ∧
      (payload.level = none → updated.level = existing.level) ∧
      (replaceFirstById store aid updated).find? (fun d => d.id == aid) =
        some updated := by
  have hid : existing.id = aid := by
    have h := List.find?_some hfind
    simpa using h
  have hval : (match parse_date existing.end_date with
      | none => true
      | some e2 =>
        match parse_date (orNone "") with
        | some s => decide (e2 < s)
        | none => false) = false := by
    rw [hend_inv]
    simp [orNone, parse_date]
  have hfr := find?_replaceFirstById store aid
    { id := existing.id
      message := match payload.message with
        | some m => some (strip m)
        | none => existing.message
      start_date := orNone ""
      end_date := existing.end_date
      level := match payload.level with
        | some l => some (normalize_level (some l))
        | none => existing.level
      created_at := existing.created_at
      updated_at := some now } hid existing hfind
  refine ⟨{ id := existing.id
            message := match payload.message with
              | some m => some (strip m)
              | none => existing.message
            start_date := orNone ""
            end_date := existing.end_date
            level := match payload.level with
              | some l => some (normalize_level (some l))
              | none => existing.level
            created_at := existing.created_at
            updated_at := some now }, ?_, ?_, rfl, rfl, rfl, rfl, ?_, ?_, hfr⟩
  · simp only [update_announcement, hauth, hsd, hed, hfind, if_true,
      Bool.false_eq_true, if_false, hval, hfr]
  · simp [orNone]
  · intro h
    rw [h]
  · intro h
    rw [h]

/-- Witness for C4 at a one-record store with a set start_date. -/
theorem C4_update_empty_start_clears_witness :
    ∃ updated : AnnDoc,
      update_announcement ["t"] (some "t") "a1" ⟨none, some "", none, none⟩ "T1"
          [⟨"a1", some "m", some "2025-01-01", some "2025-06-01", some "info",
            some "T0", some "T0"⟩] =
        (.ok (serialize_announcement updated),
          replaceFirstById
            [⟨"a1", some "m", some "2025-01-01", some "2025-06-01", some "info",
              some "T0", some "T0"⟩] "a1" updated) ∧
      updated.start_date = none ∧
      updated.end_date = (⟨"a1", some "m", some "2025-01-01", some "2025-06-01",
        some "info", some "T0", some "T0"⟩ : AnnDoc).end_date ∧
      updated.id = (⟨"a1", some "m", some "2025-01-01", some "2025-06-01",
        some "info", some "T0", some "T0"⟩ : AnnDoc).id ∧
      updated.created_at = (⟨"a1", some "m", some "2025-01-01", some "2025-06-01",
        some "info", some "T0", some "T0"⟩ : AnnDoc).created_at ∧
      updated.updated_at = some "T1" ∧
      ((none : Option String) = none →
        updated.message = (⟨"a1", some "m", some "2025-01-01", some "2025-06-01",
          some "info", some "T0", some "T0"⟩ : AnnDoc).message) ∧
      ((none : Option String) = none →
        updated.level = (⟨"a1", some "m", some "2025-01-01", some "2025-06-01",
          some "info", some "T0", some "T0"⟩ : AnnDoc).level) ∧
      (replaceFirstById
          [⟨"a1", some "m", some "2025-01-01", some "2025-06-01", some "info",
            some "T0", some "T0"⟩] "a1" updated).find? (fun d => d.id == "a1") =
        some updated :=
  C4_update_empty_start_clears ["t"] (some "t") "a1" ⟨none, some "", none, none⟩
    "T1"
    [⟨"a1", some "m", some "2025-01-01", some "2025-06-01", some "info",
      some "T0", some "T0"⟩]
    ⟨"a1", some "m", some "2025-01-01", some "2025-06-01", some "info",
      some "T0", some "T0"⟩ 20250601
    (by decide) (by decide) (by decide) rfl rfl
